import Mathlib

/-!
Verification of the prompt-site backend (`src/server.js`).

Strings are modelled as `List Char`.  JavaScript string primitives used by the
source (`trim`, `replaceAll`, `slice`, `lastIndexOf`, `toLowerCase`,
`Array.join`) are given explicit executable models, and each server-side
function (`safe`, `buildInputBundle`, `buildPrompt`, `getExt`,
`excelBufferToText`, `clampText`, the extension predicates, the
`/api/generate` handler body) is translated directly from the source.
External parsing libraries (`pdf-parse`, `mammoth`, `XLSX`, `node-pptx-parser`,
`JSON.parse`/`JSON.stringify`, buffer decoding) are modelled as oracle
functions over an abstract buffer type, exactly at the boundary where the
source calls into them.
-/

set_option maxHeartbeats 1000000

/-- JavaScript whitespace test used by `String.prototype.trim`. -/
def isJsWs (c : Char) : Bool := c.isWhitespace

/-- Model of `String.prototype.trim`. -/
def jsTrim (s : List Char) : List Char :=
  ((s.dropWhile isJsWs).reverse.dropWhile isJsWs).reverse

/-- `safe(v, fallback)` from the source: trim, and fall back when empty. -/
def safe (v fallback : List Char) : List Char :=
  let s := jsTrim v
  if s.length ≠ 0 then s else fallback

/-- `safe(v)` with the default empty fallback. -/
def safeD (v : List Char) : List Char := safe v []

/-- JavaScript `a || b` on strings: the empty string is falsy. -/
def jsOr (a b : List Char) : List Char := if a.isEmpty then b else a

/-- Model of `Array.prototype.join(sep)`. -/
def joinSep (sep : List Char) : List (List Char) → List Char
  | [] => []
  | [x] => x
  | x :: y :: xs => x ++ sep ++ joinSep sep (y :: xs)

/-- Substring test: `containsSub pat s` holds when `pat` occurs in `s`. -/
def containsSub (pat : List Char) : List Char → Bool
  | [] => pat.isEmpty
  | c :: rest => pat.isPrefixOf (c :: rest) || containsSub pat rest

/-- The backquote character U+0060, the second character of the
GetSubstitution escape for the text preceding the match. -/
def backquoteChar : Char := Char.ofNat 96

/-- The apostrophe character U+0027, the second character of the
GetSubstitution escape for the text following the match. -/
def singleQuoteChar : Char := Char.ofNat 39

/-- ECMAScript GetSubstitution applied to a string replacement with a string
pattern (no capture groups): `$$` yields `$`, `$&` the matched text,
dollar-backquote the portion of the original string before the match,
dollar-apostrophe the portion after it; every other use of `$` (including
`$1`..`$99` and `$<` since there are no captures) stays literal. -/
def expandRepl (matched before after : List Char) : List Char → List Char
  | [] => []
  | [c] => [c]
  | c :: d :: rest =>
    if c = '$' then
      if d = '$' then '$' :: expandRepl matched before after rest
      else if d = '&' then matched ++ expandRepl matched before after rest
      else if d = backquoteChar then before ++ expandRepl matched before after rest
      else if d = singleQuoteChar then after ++ expandRepl matched before after rest
      else c :: expandRepl matched before after (d :: rest)
    else c :: expandRepl matched before after (d :: rest)

/-- Fuel-driven model of `String.prototype.replaceAll` with a literal
pattern: scan left to right, replace each non-overlapping occurrence by the
GetSubstitution expansion of the replacement string, and do not rescan the
inserted text.  `before` accumulates the already-scanned prefix of the
original string, feeding the dollar-backquote escape. -/
def replaceAllAux (p r : List Char) : Nat → List Char → List Char → List Char
  | _, _, [] => []
  | 0, _, s => s
  | fuel + 1, before, c :: s =>
    if !p.isEmpty && p.isPrefixOf (c :: s) then
      expandRepl p before (s.drop (p.length - 1)) r ++
        replaceAllAux p r fuel (before ++ p) (s.drop (p.length - 1))
    else
      c :: replaceAllAux p r fuel (before ++ [c]) s

/-- `s.replaceAll(p, r)` for a nonempty literal pattern `p`. -/
def replaceAll (p r s : List Char) : List Char :=
  replaceAllAux p r s.length [] s

/-- The seven placeholder fields of the prompt template. -/
inductive PromptField where
  | contextDocuments
  | trainingGoal
  | traineeRole
  | personaRole
  | scenarioType
  | coachRole
  | customerName
deriving DecidableEq, Repr, Fintype

/-- The `payload` object handed to `buildPrompt` in the source. -/
structure Payload where
  contextDocuments : List Char
  trainingGoal : List Char
  traineeRole : List Char
  personaRole : List Char
  scenarioType : List Char
  coachRole : List Char
  customerName : List Char
deriving DecidableEq, Repr

/-- The placeholder token substituted for each field (source lines 75-81). -/
def tok : PromptField → List Char
  | .contextDocuments => "{{CONTEXT_DOCUMENTS}}".data
  | .trainingGoal => "{{TRAINING_GOAL}}".data
  | .traineeRole => "{{TRAINEE_ROLE}}".data
  | .personaRole => "{{PERSONA_ROLE}}".data
  | .scenarioType => "{{SCENARIO_TYPE}}".data
  | .coachRole => "{{COACH_ROLE}}".data
  | .customerName => "{{CUSTOMER_NAME}}".data

/-- Projection of a payload at a field. -/
def fieldValue (pl : Payload) : PromptField → List Char
  | .contextDocuments => pl.contextDocuments
  | .trainingGoal => pl.trainingGoal
  | .traineeRole => pl.traineeRole
  | .personaRole => pl.personaRole
  | .scenarioType => pl.scenarioType
  | .coachRole => pl.coachRole
  | .customerName => pl.customerName

/-- `buildPrompt(template, payload)` from the source: seven chained
`replaceAll` calls, innermost first. -/
def buildPrompt (template : List Char) (payload : Payload) : List Char :=
  replaceAll (tok .customerName) payload.customerName
    (replaceAll (tok .coachRole) payload.coachRole
      (replaceAll (tok .scenarioType) payload.scenarioType
        (replaceAll (tok .personaRole) payload.personaRole
          (replaceAll (tok .traineeRole) payload.traineeRole
            (replaceAll (tok .trainingGoal) payload.trainingGoal
              (replaceAll (tok .contextDocuments) payload.contextDocuments
                template))))))

/-- One placeholder substitution step. -/
def substOne (pl : Payload) (s : List Char) (f : PromptField) : List Char :=
  replaceAll (tok f) (fieldValue pl f) s

/-- Apply placeholder substitutions in the order given by `fs`. -/
def applySubsts (pl : Payload) (fs : List PromptField) (s : List Char) : List Char :=
  fs.foldl (substOne pl) s

/-- The substitution order used by the source. -/
def codeOrder : List PromptField :=
  [.contextDocuments, .trainingGoal, .traineeRole, .personaRole,
   .scenarioType, .coachRole, .customerName]

/-- A well-formed template decomposes into literal segments and placeholder
holes. -/
inductive Piece where
  | lit (s : List Char)
  | hole (f : PromptField)
deriving DecidableEq, Repr

/-- The template string denoted by a piece list. -/
def toTemplate : List Piece → List Char
  | [] => []
  | .lit s :: ps => s ++ toTemplate ps
  | .hole f :: ps => tok f ++ toTemplate ps

/-- The fully substituted result: every hole replaced by its field text. -/
def render (pl : Payload) : List Piece → List Char
  | [] => []
  | .lit s :: ps => s ++ render pl ps
  | .hole f :: ps => fieldValue pl f ++ render pl ps

/-- Partially substituted template: holes of fields selected by `S` carry the
field text, the others still carry their token. -/
def renderPartial (pl : Payload) (S : PromptField → Bool) : List Piece → List Char
  | [] => []
  | .lit s :: ps => s ++ renderPartial pl S ps
  | .hole f :: ps => (if S f then fieldValue pl f else tok f) ++ renderPartial pl S ps

/-- A string is brace-free when it has no `{` character. -/
def braceFreeStr (s : List Char) : Bool := s.all (fun c => c != '{')

/-- All literal segments of the piece list are brace-free. -/
def wfPieces : List Piece → Bool
  | [] => true
  | .lit s :: ps => braceFreeStr s && wfPieces ps
  | .hole _ :: ps => wfPieces ps

/-- A string is clean when it contains neither `{` nor `$` — no character
that can start a placeholder token or a GetSubstitution escape. -/
def cleanStr (s : List Char) : Bool := s.all (fun c => c != '{' && c != '$')

/-- All seven field texts are clean (brace-free and dollar-free). -/
def cleanPayload (pl : Payload) : Bool :=
  cleanStr pl.contextDocuments && cleanStr pl.trainingGoal &&
  cleanStr pl.traineeRole && cleanStr pl.personaRole &&
  cleanStr pl.scenarioType && cleanStr pl.coachRole &&
  cleanStr pl.customerName

/-- `buildInputBundle(contextDocuments, rubricInput)` from the source. -/
def buildInputBundle (contextDocuments rubricInput : List Char) : List Char :=
  let ctx := safeD contextDocuments
  let rb := safeD rubricInput
  if rb.isEmpty then ctx
  else joinSep "\n".data
    [ctx, [], "────────────────────".data,
     "【補充：評分規則／rubric（輸入資料的一部分）】".data, rb]

/-- Fallback marker for the transcript bundle (source line 362). -/
def ctxFallbackMarker : List Char := "（此處貼上逐字稿或檢核點）".data

/-- Marker used when the training goal is not supplied (source line 363). -/
def trainingGoalMarker : List Char :=
  "（未提供：請 AI 自行判斷並在輸出中明確定義訓練目標）".data

/-- Marker used when the trainee role is not supplied (source line 364). -/
def traineeRoleMarker : List Char := "（未提供：請 AI 自行判斷學員角色）".data

/-- Marker used when the persona role is not supplied (source line 365). -/
def personaRoleMarker : List Char := "（未提供：請 AI 自行判斷對練角色類型）".data

/-- Marker used when the scenario type is not supplied (source line 366). -/
def scenarioTypeMarker : List Char :=
  "（未提供：請 AI 自行判斷並在輸出中明確定義情境類型）".data

/-- Marker used when the coach role is not supplied (source line 367). -/
def coachRoleMarker : List Char := "（未提供）".data

/-- Marker used when the customer name is not supplied (source line 368). -/
def customerNameMarker : List Char := "（未提供）".data

/-- The `payload` object literal of the handler (source lines 361-369). -/
def mkPayload (contextBundle : List Char) : Payload :=
  { contextDocuments := safe contextBundle ctxFallbackMarker
    trainingGoal := trainingGoalMarker
    traineeRole := traineeRoleMarker
    personaRole := personaRoleMarker
    scenarioType := scenarioTypeMarker
    coachRole := coachRoleMarker
    customerName := customerNameMarker }

/-- The default clamp budget (source line 101). -/
def clampDefault : Nat := 80000

/-- The truncation notice appended by `clampText`, carrying the original
length rendered in decimal. -/
def truncNote (n : Nat) : List Char :=
  "\n\n(…已截斷，原長度 ".data ++ (Nat.repr n).data ++ " chars)".data

/-- `clampText(s, maxChars)` from the source. -/
def clampText (s : List Char) (maxChars : Nat) : List Char :=
  if s.length ≤ maxChars then s else s.take maxChars ++ truncNote s.length

/-- `clampText(s)` with the default budget. -/
def clampTextD (s : List Char) : List Char := clampText s clampDefault

/-- `getExt`: model of `String.prototype.lastIndexOf` returning `none`
for the JavaScript `-1`. -/
def lastIndexOf (s : List Char) (c : Char) : Option Nat :=
  match s.reverse.findIdx? (fun x => x == c) with
  | none => none
  | some j => some (s.length - 1 - j)

/-- `getExt(filename)` from the source: substring after the last dot,
lowercased; empty when there is no dot. -/
def getExt (filename : List Char) : List Char :=
  match lastIndexOf filename '.' with
  | some i => (filename.drop (i + 1)).map Char.toLower
  | none => []

def isSupportedTextExt (ext : List Char) : Bool :=
  ext == "txt".data || ext == "csv".data || ext == "md".data || ext == "json".data

def isSupportedExcelExt (ext : List Char) : Bool :=
  ext == "xlsx".data || ext == "xls".data

def isSupportedImageExt (ext : List Char) : Bool :=
  ext == "png".data || ext == "jpg".data || ext == "jpeg".data || ext == "webp".data

def isSupportedPdfExt (ext : List Char) : Bool := ext == "pdf".data

def isSupportedDocxExt (ext : List Char) : Bool := ext == "docx".data

def isSupportedPptxExt (ext : List Char) : Bool := ext == "pptx".data

/-- One sheet's block in `excelBufferToText`:
`--- Sheet: ${sheetName} ---\n${csv}`. -/
def sheetBlock (sheetName csv : List Char) : List Char :=
  "--- Sheet: ".data ++ sheetName ++ " ---\n".data ++ csv

/-- `excelBufferToText` from the source, over the workbook model produced by
the `XLSX` oracle: a list of `(sheetName, csv)` pairs in the workbook's
internal sheet order.  Mirrors the `lines.push` loop followed by
`lines.join("\n\n")`. -/
def excelBufferToText (wb : List (List Char × List Char)) : List Char :=
  joinSep "\n\n".data
    (wb.foldl (fun lines sheet => lines ++ [sheetBlock sheet.1 sheet.2]) [])

/-- One slide's block in `pptxBufferToText`. -/
def slideBlock (id text : List Char) : List Char :=
  "--- Slide: ".data ++ id ++ " ---\n".data ++ text

/-- `pptxBufferToText` over the slide model produced by the parser oracle. -/
def pptxBufferToText (slides : List (List Char × List Char)) : List Char :=
  joinSep "\n\n".data
    (slides.foldl (fun lines s => lines ++ [slideBlock s.1 s.2]) [])

/-- External parsing libraries, modelled as oracles over an abstract buffer
type `B`: `utf8` is `buffer.toString("utf8")`, `jsonCanon` is
`JSON.stringify(JSON.parse(content), null, 2)` returning `none` when
`JSON.parse` throws, `workbook` is `XLSX.read` plus `sheet_to_csv` per sheet,
`pdfText` is `pdfParse(buffer).text`, `docxText` is
`mammoth.extractRawText(...).value`, `pptxSlides` is the parsed slide list
(`id`, joined text), and `base64` is `buffer.toString("base64")`. -/
structure Parsers (B : Type) where
  utf8 : B → List Char
  jsonCanon : List Char → Option (List Char)
  workbook : B → List (List Char × List Char)
  pdfText : B → List Char
  docxText : B → List Char
  pptxSlides : B → List (List Char × List Char)
  base64 : B → List Char

/-- An uploaded file as seen by the handler (multer memory storage). -/
structure UFile (B : Type) where
  originalname : List Char
  buffer : B

/-- An `{ type: "input_image", image_url: dataUrl }` item; the `type` field is
the fixed string `"input_image"` and is omitted from the model. -/
structure ImageInput where
  image_url : List Char
deriving DecidableEq, Repr

/-- MIME selection for image attachments (source lines 250-251). -/
def mimeOf (ext : List Char) : List Char :=
  if ext == "png".data then "image/png".data
  else if ext == "webp".data then "image/webp".data
  else "image/jpeg".data

/-- The `data:` URL assembled for an image attachment (source line 253). -/
def dataUrl (mime base64 : List Char) : List Char :=
  "data:".data ++ mime ++ ";base64,".data ++ base64

def ctxTextLabel (name : List Char) : List Char :=
  "[逐字稿附件文字：".data ++ name ++ "]\n".data

def ctxExcelLabel (name : List Char) : List Char :=
  "[逐字稿附件Excel：".data ++ name ++ "]\n".data

def ctxPdfLabel (name : List Char) : List Char :=
  "[逐字稿附件PDF：".data ++ name ++ "]\n".data

def ctxDocxLabel (name : List Char) : List Char :=
  "[逐字稿附件Word：".data ++ name ++ "]\n".data

def ctxPptxLabel (name : List Char) : List Char :=
  "[逐字稿附件PPTX：".data ++ name ++ "]\n".data

def pdfEmptyMsg : List Char := "（此 PDF 可能為掃描檔，未能解析出文字）".data

def docxEmptyMsg : List Char := "（此 Word 檔未能解析出文字）".data

def pptxEmptyMsg : List Char := "（此 PPTX 未能解析出文字）".data

def ctxUnsupportedMsg (name : List Char) : List Char :=
  "逐字稿欄不支援的檔案格式：".data ++ name

def rubricTextLabel (name : List Char) : List Char :=
  "[評分表附件文字：".data ++ name ++ "]\n".data

def rubricExcelLabel (name : List Char) : List Char :=
  "[評分表附件Excel：".data ++ name ++ "]\n".data

def rubricPdfLabel (name : List Char) : List Char :=
  "[評分表附件PDF：".data ++ name ++ "]\n".data

def rubricDocxLabel (name : List Char) : List Char :=
  "[評分表附件Word：".data ++ name ++ "]\n".data

def rubricPptxLabel (name : List Char) : List Char :=
  "[評分表附件PPTX：".data ++ name ++ "]\n".data

def rubricImageMsg (name : List Char) : List Char :=
  "評分表欄不接受圖片檔：".data ++ name

def rubricUnsupportedMsg (name : List Char) : List Char :=
  "評分表欄不支援的檔案格式：".data ++ name

def missingTranscriptMsg : List Char :=
  "缺少逐字稿內容：請輸入逐字稿文字或上傳逐字稿檔案。".data

def ctxAttachBanner : List Char := "\n\n【逐字稿欄附件彙整】\n".data

def rubricAttachBanner : List Char := "\n\n【評分表欄附件彙整】\n".data

/-- Text content of a text-like attachment after the optional JSON
canonicalization step (source lines 195-201 and 278-284). -/
def textContent {B : Type} (p : Parsers B) (ext : List Char) (buf : B) : List Char :=
  let content := p.utf8 buf
  if ext == "json".data then
    match p.jsonCanon content with
    | some pretty => pretty
    | none => content
  else content

/-- Processing of one transcript-field attachment (source lines 190-262):
dispatch on the lowercased extension, producing a text chunk, an image
input, or the 400 error message for unsupported formats. -/
def processContextFile {B : Type} (p : Parsers B) (f : UFile B) :
    Except (List Char) (Sum (List Char) ImageInput) :=
  let ext := getExt f.originalname
  if isSupportedTextExt ext then
    .ok (.inl (ctxTextLabel f.originalname ++ clampTextD (textContent p ext f.buffer)))
  else if isSupportedExcelExt ext then
    .ok (.inl (ctxExcelLabel f.originalname ++
      clampTextD (excelBufferToText (p.workbook f.buffer))))
  else if isSupportedPdfExt ext then
    let pdfText := jsTrim (p.pdfText f.buffer)
    .ok (.inl (ctxPdfLabel f.originalname ++
      (if pdfText.isEmpty then pdfEmptyMsg else clampTextD pdfText)))
  else if isSupportedDocxExt ext then
    let docText := jsTrim (p.docxText f.buffer)
    .ok (.inl (ctxDocxLabel f.originalname ++
      (if docText.isEmpty then docxEmptyMsg else clampTextD docText)))
  else if isSupportedPptxExt ext then
    let pptText := pptxBufferToText (p.pptxSlides f.buffer)
    .ok (.inl (ctxPptxLabel f.originalname ++
      (if (jsTrim pptText).isEmpty then pptxEmptyMsg else clampTextD pptText)))
  else if isSupportedImageExt ext then
    .ok (.inr ⟨dataUrl (mimeOf ext) (p.base64 f.buffer)⟩)
  else
    .error (ctxUnsupportedMsg f.originalname)

/-- Processing of one rubric-field attachment (source lines 267-331): the
image check comes first and produces the 400 error message. -/
def processRubricFile {B : Type} (p : Parsers B) (f : UFile B) :
    Except (List Char) (List Char) :=
  let ext := getExt f.originalname
  if isSupportedImageExt ext then
    .error (rubricImageMsg f.originalname)
  else if isSupportedTextExt ext then
    .ok (rubricTextLabel f.originalname ++ clampTextD (textContent p ext f.buffer))
  else if isSupportedExcelExt ext then
    .ok (rubricExcelLabel f.originalname ++
      clampTextD (excelBufferToText (p.workbook f.buffer)))
  else if isSupportedPdfExt ext then
    let pdfText := jsTrim (p.pdfText f.buffer)
    .ok (rubricPdfLabel f.originalname ++
      (if pdfText.isEmpty then pdfEmptyMsg else clampTextD pdfText))
  else if isSupportedDocxExt ext then
    let docText := jsTrim (p.docxText f.buffer)
    .ok (rubricDocxLabel f.originalname ++
      (if docText.isEmpty then docxEmptyMsg else clampTextD docText))
  else if isSupportedPptxExt ext then
    let pptText := pptxBufferToText (p.pptxSlides f.buffer)
    .ok (rubricPptxLabel f.originalname ++
      (if (jsTrim pptText).isEmpty then pptxEmptyMsg else clampTextD pptText))
  else
    .error (rubricUnsupportedMsg f.originalname)

/-- The transcript-field loop: first failing file aborts the request;
chunks and image inputs are collected in submission order. -/
def processContextFiles {B : Type} (p : Parsers B) :
    List (UFile B) → Except (List Char) (List (List Char) × List ImageInput)
  | [] => .ok ([], [])
  | f :: fs =>
    match processContextFile p f with
    | .error e => .error e
    | .ok (.inl chunk) =>
      match processContextFiles p fs with
      | .error e => .error e
      | .ok (cs, is) => .ok (chunk :: cs, is)
    | .ok (.inr img) =>
      match processContextFiles p fs with
      | .error e => .error e
      | .ok (cs, is) => .ok (cs, img :: is)

/-- The rubric-field loop. -/
def processRubricFiles {B : Type} (p : Parsers B) :
    List (UFile B) → Except (List Char) (List (List Char))
  | [] => .ok []
  | f :: fs =>
    match processRubricFile p f with
    | .error e => .error e
    | .ok chunk =>
      match processRubricFiles p fs with
      | .error e => .error e
      | .ok cs => .ok (chunk :: cs)

/-- The field-bundle merge (source lines 334-339 and 342-347):
`[base, chunks.length ? banner + chunks.join("\n\n") : ""].join("")`. -/
def mergeBundle (base banner : List Char) (chunks : List (List Char)) : List Char :=
  base ++ (if chunks.isEmpty then [] else banner ++ joinSep "\n\n".data chunks)

/-- The text fields of the multipart body. -/
structure Body where
  contextDocuments : List Char
  text : List Char
  rubricInput : List Char

/-- Outcome of the handler: a 400 response, or a call to the completion
dispatcher with the assembled prompt and image inputs. -/
inductive HandlerResult where
  | badRequest (error : List Char)
  | dispatch (prompt : List Char) (images : List ImageInput)
deriving DecidableEq, Repr

/-- HTTP status of the modelled outcome. -/
def HandlerResult.status : HandlerResult → Nat
  | .badRequest _ => 400
  | .dispatch _ _ => 200

/-- The `ok` flag of the JSON response body. -/
def HandlerResult.okFlag : HandlerResult → Bool
  | .badRequest _ => false
  | .dispatch _ _ => true

/-- The `/api/generate` handler body (source lines 167-394), up to the call
of the completion dispatcher. -/
def handleGenerate {B : Type} (p : Parsers B) (template : List Char)
    (body : Body) (contextFiles rubricFiles : List (UFile B)) : HandlerResult :=
  let baseContext := jsOr (safeD body.contextDocuments) (safeD body.text)
  let baseRubric := safeD body.rubricInput
  match processContextFiles p contextFiles with
  | .error e => .badRequest e
  | .ok (contextTextChunks, imageInputs) =>
    match processRubricFiles p rubricFiles with
    | .error e => .badRequest e
    | .ok rubricTextChunks =>
      let mergedContext := mergeBundle baseContext ctxAttachBanner contextTextChunks
      let mergedRubric := mergeBundle baseRubric rubricAttachBanner rubricTextChunks
      if (safeD mergedContext).isEmpty && imageInputs.isEmpty then
        .badRequest missingTranscriptMsg
      else
        let contextBundle := buildInputBundle mergedContext mergedRubric
        .dispatch (buildPrompt template (mkPayload contextBundle)) imageInputs

/-- Oracle instance whose parsers all return empty results; used to build
concrete requests. -/
def trivialParsers : Parsers Unit :=
  { utf8 := fun _ => []
    jsonCanon := fun _ => none
    workbook := fun _ => []
    pdfText := fun _ => []
    docxText := fun _ => []
    pptxSlides := fun _ => []
    base64 := fun _ => [] }

/-- Oracle instance for a buffer holding invalid JSON: `JSON.parse` throws,
so the canonicalizer returns `none`. -/
def jsonNoneParsers : Parsers Unit :=
  { utf8 := fun _ => "not json".data
    jsonCanon := fun _ => none
    workbook := fun _ => []
    pdfText := fun _ => []
    docxText := fun _ => []
    pptxSlides := fun _ => []
    base64 := fun _ => [] }

/-- Oracle instance for a scanned PDF: extraction yields whitespace only. -/
def pdfWsParsers : Parsers Unit :=
  { utf8 := fun _ => []
    jsonCanon := fun _ => none
    workbook := fun _ => []
    pdfText := fun _ => "  ".data
    docxText := fun _ => []
    pptxSlides := fun _ => []
    base64 := fun _ => [] }

/-- Oracle instance for a workbook with sheets `Q1` and `Q2`. -/
def excelParsers : Parsers Unit :=
  { utf8 := fun _ => []
    jsonCanon := fun _ => none
    workbook := fun _ => [("Q1".data, "1,2\n".data), ("Q2".data, "3,4\n".data)]
    pdfText := fun _ => []
    docxText := fun _ => []
    pptxSlides := fun _ => []
    base64 := fun _ => [] }

/-- An alternative substitution order: training goal before transcript. -/
def altOrder : List PromptField :=
  [.trainingGoal, .contextDocuments, .traineeRole, .personaRole,
   .scenarioType, .coachRole, .customerName]

/-- A payload whose training-goal text itself contains a placeholder token. -/
def cexPayload : Payload :=
  { contextDocuments := "Y".data
    trainingGoal := "{{CONTEXT_DOCUMENTS}}".data
    traineeRole := []
    personaRole := []
    scenarioType := []
    coachRole := []
    customerName := [] }

/-- The template used by the order-dependence counterexample. -/
def cexTemplate : List Char := "{{TRAINING_GOAL}}".data

/-- A brace-free payload whose training-goal text uses the GetSubstitution
escape for the matched text, re-inserting the placeholder token. -/
def cexPayloadDollar : Payload :=
  { contextDocuments := "Y".data
    trainingGoal := "a$&b".data
    traineeRole := []
    personaRole := []
    scenarioType := []
    coachRole := []
    customerName := [] }

/-- The template pieces used by the order-independence witness. -/
def wPieces : List Piece :=
  [.lit "Intro: ".data, .hole .trainingGoal, .lit " / ".data,
   .hole .coachRole, .lit " end".data]

/-- The clean (brace-free and dollar-free) payload used by the
order-independence witness. -/
def wPayload : Payload :=
  { contextDocuments := "c".data
    trainingGoal := "goal".data
    traineeRole := "t".data
    personaRole := "p".data
    scenarioType := "s".data
    coachRole := "coach".data
    customerName := "n".data }

theorem expandRepl_noDollar (m b a : List Char) :
    ∀ r : List Char, '$' ∉ r → expandRepl m b a r = r := by
  intro r
  induction r with
  | nil => intro _; rfl
  | cons c rest ih =>
    intro h
    have hc : c ≠ '$' := fun hh => h (hh ▸ List.mem_cons_self c rest)
    have hrest : '$' ∉ rest := fun hh => h (List.mem_cons_of_mem c hh)
    cases rest with
    | nil => rfl
    | cons d rest2 =>
      have hstep : expandRepl m b a (c :: d :: rest2) =
          c :: expandRepl m b a (d :: rest2) := by
        simp [expandRepl, hc]
      rw [hstep, ih hrest]

theorem replaceAllAux_before (p r : List Char) (hd : '$' ∉ r) :
    ∀ (fuel : Nat) (b₁ b₂ s : List Char),
      replaceAllAux p r fuel b₁ s = replaceAllAux p r fuel b₂ s := by
  intro fuel
  induction fuel with
  | zero => intro b₁ b₂ s; cases s <;> rfl
  | succ n ih =>
    intro b₁ b₂ s
    cases s with
    | nil => rfl
    | cons c t =>
      simp only [replaceAllAux]
      by_cases h : (!p.isEmpty && p.isPrefixOf (c :: t)) = true
      · rw [if_pos h, if_pos h,
          expandRepl_noDollar p b₁ (t.drop (p.length - 1)) r hd,
          expandRepl_noDollar p b₂ (t.drop (p.length - 1)) r hd,
          ih (b₁ ++ p) (b₂ ++ p) (t.drop (p.length - 1))]
      · rw [if_neg h, if_neg h, ih (b₁ ++ [c]) (b₂ ++ [c]) t]

theorem replaceAllAux_fuel (p r : List Char) :
    ∀ fuel₁ fuel₂ before s, s.length ≤ fuel₁ → s.length ≤ fuel₂ →
      replaceAllAux p r fuel₁ before s = replaceAllAux p r fuel₂ before s := by
  intro fuel₁
  induction fuel₁ with
  | zero =>
    intro fuel₂ before s hs₁ _
    have : s = [] := List.length_eq_zero.mp (Nat.le_zero.mp hs₁)
    subst this
    cases fuel₂ <;> rfl
  | succ n ih =>
    intro fuel₂ before s hs₁ hs₂
    cases s with
    | nil => cases fuel₂ <;> rfl
    | cons c t =>
      cases fuel₂ with
      | zero => exact absurd hs₂ (by simp)
      | succ m =>
        simp only [replaceAllAux]
        by_cases h : (!p.isEmpty && p.isPrefixOf (c :: t)) = true
        · rw [if_pos h, if_pos h]
          have hlen : (t.drop (p.length - 1)).length ≤ t.length := by
            simp [Nat.sub_le]
          have h₁ : (t.drop (p.length - 1)).length ≤ n :=
            le_trans hlen (Nat.le_of_succ_le_succ hs₁)
          have h₂ : (t.drop (p.length - 1)).length ≤ m :=
            le_trans hlen (Nat.le_of_succ_le_succ hs₂)
          rw [ih _ _ _ h₁ h₂]
        · rw [if_neg h, if_neg h]
          rw [ih _ _ _ (Nat.le_of_succ_le_succ hs₁) (Nat.le_of_succ_le_succ hs₂)]

theorem replaceAll_nil (p r : List Char) : replaceAll p r [] = [] := rfl

theorem replaceAll_cons_miss (p r : List Char) (hd : '$' ∉ r) (c : Char) (s : List Char)
    (h : p.isPrefixOf (c :: s) = false) :
    replaceAll p r (c :: s) = c :: replaceAll p r s := by
  simp only [replaceAll, List.length_cons]
  simp [replaceAllAux, h]
  exact replaceAllAux_before p r hd s.length [c] [] s

theorem replaceAll_hit (p r b : List Char) (hd : '$' ∉ r) (hp : p ≠ []) :
    replaceAll p r (p ++ b) = r ++ replaceAll p r b := by
  cases p with
  | nil => exact absurd rfl hp
  | cons q p' =>
    have hpre : (q :: p').isPrefixOf (q :: (p' ++ b)) = true := by
      rw [ List.isPrefixOf_iff_prefix]
      exact List.prefix_append _ _
    simp only [replaceAll, List.cons_append, List.length_cons, replaceAllAux,
      List.isEmpty_cons, Bool.not_false, Bool.true_and, List.append_eq, hpre, if_true]
    have hdrop : (p' ++ b).drop (p'.length + 1 - 1) = b := by
      simp [List.drop_left]
    rw [hdrop, expandRepl_noDollar _ _ _ r hd]
    congr 1
    rw [replaceAllAux_before (q :: p') r hd _ ([] ++ q :: p') [] b]
    exact replaceAllAux_fuel (q :: p') r _ _ [] b (by simp) (le_refl _)

theorem replaceAll_skip (p r : List Char) (hd : '$' ∉ r) :
    ∀ (x b : List Char),
      (∀ i, i < x.length → p.isPrefixOf (x.drop i ++ b) = false) →
      replaceAll p r (x ++ b) = x ++ replaceAll p r b := by
  intro x
  induction x with
  | nil => intro b _; simp
  | cons c t ih =>
    intro b h
    have h0 : p.isPrefixOf (c :: (t ++ b)) = false := by
      have := h 0 (by simp)
      simpa using this
    have hrec : ∀ i, i < t.length → p.isPrefixOf (t.drop i ++ b) = false := by
      intro i hi
      have := h (i + 1) (by simp [Nat.succ_lt_succ hi])
      simpa using this
    rw [List.cons_append, replaceAll_cons_miss p r hd c (t ++ b) h0, ih b hrec]
    simp

theorem buildPrompt_eq_applySubsts (template : List Char) (pl : Payload) :
    buildPrompt template pl = applySubsts pl codeOrder template := rfl

theorem tok_ne_nil : ∀ f : PromptField, tok f ≠ [] := by decide

theorem tok_head : ∀ f : PromptField, (tok f).head? = some '{' := by decide

theorem tok_has_brace : ∀ f : PromptField, '{' ∈ tok f := by decide

/-- No token of one field matches anywhere strictly inside another field's
token, regardless of what follows: the relevant prefix-compatibility checks
all fail.  Verified by exhaustive computation over the 7 × 7 token pairs. -/
theorem tokensIndep : ∀ f g : PromptField, f ≠ g → ∀ i, i < (tok g).length →
    (tok f).isPrefixOf ((tok g).drop i) = false ∧
    ((tok g).drop i).isPrefixOf (tok f) = false := by decide

theorem isPrefixOf_cons_false (p : List Char) (a c : Char) (rest : List Char)
    (hh : p.head? = some a) (hne : a ≠ c) :
    p.isPrefixOf (c :: rest) = false := by
  cases p with
  | nil => simp at hh
  | cons q p' =>
    have : q = a := by simpa using hh
    subst this
    simp [List.isPrefixOf, hne]

/-- A string with no opening brace can be skipped over by `replaceAll` on a
placeholder token. -/
theorem replaceAll_skip_braceFree (f : PromptField) (r : List Char) (hd : '$' ∉ r) :
    ∀ (x b : List Char), (∀ c ∈ x, c ≠ '{') →
      replaceAll (tok f) r (x ++ b) = x ++ replaceAll (tok f) r b := by
  intro x b hx
  apply replaceAll_skip (tok f) r hd
  intro i hi
  have hlen : 0 < (x.drop i).length := by simp [List.length_drop]; omega
  cases hx' : x.drop i with
  | nil => rw [hx'] at hlen; simp at hlen
  | cons c t =>
    have hc : c ∈ x := by
      have : c ∈ x.drop i := by rw [hx']; exact List.mem_cons_self _ _
      exact List.mem_of_mem_drop this
    exact isPrefixOf_cons_false _ _ _ (t ++ b) (tok_head f) (fun h => hx c hc h.symm)

/-- One field's token can be skipped over another field's token. -/
theorem replaceAll_skip_tok (f g : PromptField) (r : List Char) (hd : '$' ∉ r)
    (hfg : f ≠ g) :
    ∀ b, replaceAll (tok f) r (tok g ++ b) = tok g ++ replaceAll (tok f) r b := by
  intro b
  apply replaceAll_skip (tok f) r hd
  intro i hi
  by_contra hcon
  have hpre : (tok f) <+: ((tok g).drop i ++ b) := by
    rw [← List.isPrefixOf_iff_prefix]
    simpa using hcon
  have hpre2 : ((tok g).drop i) <+: ((tok g).drop i ++ b) := List.prefix_append _ _
  have := List.prefix_or_prefix_of_prefix hpre hpre2
  have hind := tokensIndep f g hfg i hi
  rcases this with h | h
  · rw [← List.isPrefixOf_iff_prefix] at h
    rw [hind.1] at h
    exact Bool.false_ne_true h
  · rw [← List.isPrefixOf_iff_prefix] at h
    rw [hind.2] at h
    exact Bool.false_ne_true h

theorem braceFreeStr_forall {s : List Char} (h : braceFreeStr s = true) :
    ∀ c ∈ s, c ≠ '{' := by
  intro c hc
  have := List.all_eq_true.mp h c hc
  simpa using this

theorem cleanStr_braceFree {s : List Char} (h : cleanStr s = true) :
    braceFreeStr s = true := by
  simp only [cleanStr, List.all_eq_true] at h
  simp only [braceFreeStr, List.all_eq_true]
  intro c hc
  have hcc := h c hc
  simp only [Bool.and_eq_true] at hcc
  exact hcc.1

theorem cleanStr_noDollar {s : List Char} (h : cleanStr s = true) : '$' ∉ s := by
  intro hmem
  simp only [cleanStr, List.all_eq_true] at h
  have hcc := h '$' hmem
  simp at hcc

theorem cleanValue {pl : Payload} (h : cleanPayload pl = true) :
    ∀ g, cleanStr (fieldValue pl g) = true := by
  simp only [cleanPayload, Bool.and_eq_true] at h
  obtain ⟨⟨⟨⟨⟨⟨h1, h2⟩, h3⟩, h4⟩, h5⟩, h6⟩, h7⟩ := h
  intro g
  cases g <;> simp only [fieldValue] <;> assumption

theorem renderPartial_congr (pl : Payload) (S S' : PromptField → Bool)
    (h : ∀ g, S g = S' g) :
    ∀ ps, renderPartial pl S ps = renderPartial pl S' ps := by
  intro ps
  induction ps with
  | nil => rfl
  | cons p ps ih =>
    cases p with
    | lit s => simp [renderPartial, ih]
    | hole f => simp [renderPartial, h f, ih]

theorem renderPartial_false (pl : Payload) :
    ∀ ps, renderPartial pl (fun _ => false) ps = toTemplate ps := by
  intro ps
  induction ps with
  | nil => rfl
  | cons p ps ih =>
    cases p with
    | lit s => simp [renderPartial, toTemplate, ih]
    | hole f => simp [renderPartial, toTemplate, ih]

theorem renderPartial_true (pl : Payload) :
    ∀ ps, renderPartial pl (fun _ => true) ps = render pl ps := by
  intro ps
  induction ps with
  | nil => rfl
  | cons p ps ih =>
    cases p with
    | lit s => simp [renderPartial, render, ih]
    | hole f => simp [renderPartial, render, ih]

theorem substOne_renderPartial (pl : Payload) (f : PromptField) :
    ∀ (ps : List Piece) (S : PromptField → Bool),
      wfPieces ps = true → cleanPayload pl = true →
      substOne pl (renderPartial pl S ps) f =
        renderPartial pl (fun g => S g || g == f) ps := by
  intro ps
  induction ps with
  | nil =>
    intro S _ _
    simp [renderPartial, substOne, replaceAll_nil]
  | cons p ps ih =>
    intro S hw hb
    have hdf : '$' ∉ fieldValue pl f := cleanStr_noDollar (cleanValue hb f)
    cases p with
    | lit s =>
      have hwf : braceFreeStr s = true ∧ wfPieces ps = true := by
        simpa [wfPieces, Bool.and_eq_true] using hw
      simp only [renderPartial, substOne]
      rw [replaceAll_skip_braceFree f _ hdf s _ (braceFreeStr_forall hwf.1)]
      have := ih S hwf.2 hb
      simp only [substOne] at this
      rw [this]
    | hole g =>
      have hwf : wfPieces ps = true := by simpa [wfPieces] using hw
      have ihs := ih S hwf hb
      simp only [substOne] at ihs
      by_cases hS : S g = true
      · simp only [renderPartial, substOne, hS, if_true]
        rw [replaceAll_skip_braceFree f _ hdf _ _
          (braceFreeStr_forall (cleanStr_braceFree (cleanValue hb g))), ihs]
        have : (S g || (g == f)) = true := by simp [hS]
        simp [this]
      · have hS' : S g = false := by simpa using hS
        by_cases hgf : g = f
        · subst hgf
          have lhs1 : renderPartial pl S (Piece.hole g :: ps) =
              tok g ++ renderPartial pl S ps := by
            simp [renderPartial, hS']
          have rhs1 : renderPartial pl (fun x => S x || x == g) (Piece.hole g :: ps) =
              fieldValue pl g ++ renderPartial pl (fun x => S x || x == g) ps := by
            simp [renderPartial]
          simp only [substOne]
          rw [lhs1, rhs1, replaceAll_hit _ _ _ hdf (tok_ne_nil g), ihs]
        · have hne : ((g == f) : Bool) = false := by simp [hgf]
          have lhs1 : renderPartial pl S (Piece.hole g :: ps) =
              tok g ++ renderPartial pl S ps := by
            simp [renderPartial, hS']
          have rhs1 : renderPartial pl (fun x => S x || x == f) (Piece.hole g :: ps) =
              tok g ++ renderPartial pl (fun x => S x || x == f) ps := by
            simp [renderPartial, hS', hne]
          simp only [substOne]
          rw [lhs1, rhs1, replaceAll_skip_tok f g _ hdf (Ne.symm hgf) _, ihs]

theorem applySubsts_renderPartial (pl : Payload) (ps : List Piece)
    (hw : wfPieces ps = true) (hb : cleanPayload pl = true) :
    ∀ (fs : List PromptField) (S : PromptField → Bool),
      applySubsts pl fs (renderPartial pl S ps) =
        renderPartial pl (fun g => S g || fs.contains g) ps := by
  intro fs
  induction fs with
  | nil =>
    intro S
    simp only [applySubsts, List.foldl_nil]
    exact renderPartial_congr pl S _ (fun g => by simp) ps
  | cons f fs ih =>
    intro S
    have step : applySubsts pl (f :: fs) (renderPartial pl S ps) =
        applySubsts pl fs (substOne pl (renderPartial pl S ps) f) := rfl
    rw [step, substOne_renderPartial pl f ps S hw hb, ih]
    apply renderPartial_congr
    intro g
    by_cases hgf : g = f <;> by_cases hmem : g ∈ fs <;> simp [hgf, hmem]

theorem mem_codeOrder : ∀ g : PromptField, g ∈ codeOrder := by decide

theorem applySubsts_complete (pl : Payload) (ps : List Piece)
    (hw : wfPieces ps = true) (hb : cleanPayload pl = true)
    (fs : List PromptField) (hfs : ∀ g : PromptField, g ∈ fs) :
    applySubsts pl fs (toTemplate ps) = render pl ps := by
  have h0 := applySubsts_renderPartial pl ps hw hb fs (fun _ => false)
  rw [renderPartial_false] at h0
  rw [h0]
  rw [renderPartial_congr pl _ (fun _ => true) (fun g => by simp [hfs g]) ps]
  exact renderPartial_true pl ps

theorem render_braceFree (pl : Payload) (hb : cleanPayload pl = true) :
    ∀ ps, wfPieces ps = true → braceFreeStr (render pl ps) = true := by
  intro ps
  induction ps with
  | nil => intro _; rfl
  | cons p ps ih =>
    intro hw
    cases p with
    | lit s =>
      have hwf : braceFreeStr s = true ∧ wfPieces ps = true := by
        simpa [wfPieces, Bool.and_eq_true] using hw
      have ihs := ih hwf.2
      have h1 := hwf.1
      simp only [braceFreeStr] at h1 ihs ⊢
      simp only [render, List.all_append]
      simp [h1, ihs]
    | hole f =>
      have hwf : wfPieces ps = true := by simpa [wfPieces] using hw
      have ihs := ih hwf
      have h1 := cleanStr_braceFree (cleanValue hb f)
      simp only [braceFreeStr] at h1 ihs ⊢
      simp only [render, List.all_append]
      simp [h1, ihs]

theorem containsSub_mem {pat : List Char} :
    ∀ {s : List Char}, containsSub pat s = true → ∀ c ∈ pat, c ∈ s := by
  intro s
  induction s with
  | nil =>
    intro h c hc
    have : pat = [] := by simpa [containsSub] using h
    subst this
    simp at hc
  | cons a rest ih =>
    intro h c hc
    have hsplit : pat.isPrefixOf (a :: rest) = true ∨ containsSub pat rest = true := by
      simpa [containsSub, Bool.or_eq_true] using h
    rcases hsplit with h1 | h1
    · have h1' : pat <+: (a :: rest) := by
        rw [ List.isPrefixOf_iff_prefix] at h1
        exact h1
      exact h1'.sublist.subset hc
    · exact List.mem_cons_of_mem a (ih h1 c hc)

theorem containsSub_false_of_braceFree {s : List Char}
    (hs : braceFreeStr s = true) (f : PromptField) :
    containsSub (tok f) s = false := by
  by_contra hcon
  have htrue : containsSub (tok f) s = true := by
    cases hval : containsSub (tok f) s
    · exact absurd hval hcon
    · rfl
  have hmem : '{' ∈ s := containsSub_mem htrue '{' (tok_has_brace f)
  exact absurd rfl (braceFreeStr_forall hs '{' hmem)

theorem safeD_eq_jsTrim (v : List Char) : safeD v = jsTrim v := by
  simp only [safeD, safe]
  by_cases h : (jsTrim v).length = 0
  · have hnil : jsTrim v = [] := List.length_eq_zero.mp h
    simp [hnil]
  · simp [h]

theorem containsSub_here : ∀ (n b : List Char), containsSub n (n ++ b) = true := by
  intro n b
  cases n with
  | nil => cases b <;> simp [containsSub]
  | cons c t =>
    have hpre : (c :: t).isPrefixOf (c :: (t ++ b)) = true := by
      rw [ List.isPrefixOf_iff_prefix]
      exact List.prefix_append _ _
    simp [containsSub, hpre]

theorem containsSub_append_left : ∀ (a n b : List Char),
    containsSub n (a ++ (n ++ b)) = true := by
  intro a
  induction a with
  | nil => intro n b; simpa using containsSub_here n b
  | cons c a ih =>
    intro n b
    simp only [List.cons_append, containsSub, List.append_eq]
    rw [ih n b]
    simp

theorem containsSub_suffix (a n : List Char) : containsSub n (a ++ n) = true := by
  have := containsSub_append_left a n []
  simpa using this

theorem foldl_push_eq_map {α β : Type} (g : α → β) :
    ∀ (xs : List α) (acc : List β),
      xs.foldl (fun lines x => lines ++ [g x]) acc = acc ++ xs.map g := by
  intro xs
  induction xs with
  | nil => intro acc; simp
  | cons x xs ih => intro acc; simp [ih]

theorem image_ext_cases {e : List Char} (h : isSupportedImageExt e = true) :
    e = "png".data ∨ e = "jpg".data ∨ e = "jpeg".data ∨ e = "webp".data := by
  simp only [isSupportedImageExt, Bool.or_eq_true, beq_iff_eq] at h
  tauto

theorem image_ext_dispatch {e : List Char} (h : isSupportedImageExt e = true) :
    isSupportedTextExt e = false ∧ isSupportedExcelExt e = false ∧
    isSupportedPdfExt e = false ∧ isSupportedDocxExt e = false ∧
    isSupportedPptxExt e = false := by
  rcases image_ext_cases h with h' | h' | h' | h' <;> subst h' <;>
    exact ⟨by decide, by decide, by decide, by decide, by decide⟩

theorem excel_ext_cases {e : List Char} (h : isSupportedExcelExt e = true) :
    e = "xlsx".data ∨ e = "xls".data := by
  simp only [isSupportedExcelExt, Bool.or_eq_true, beq_iff_eq] at h
  tauto

theorem excel_ext_dispatch {e : List Char} (h : isSupportedExcelExt e = true) :
    isSupportedTextExt e = false := by
  rcases excel_ext_cases h with h' | h' <;> subst h' <;> decide

theorem pdf_ext_dispatch :
    isSupportedTextExt "pdf".data = false ∧ isSupportedExcelExt "pdf".data = false ∧
    isSupportedPdfExt "pdf".data = true := ⟨by decide, by decide, by decide⟩

theorem lastIndexOf_append_cons (a b : List Char) (hb : '.' ∉ b) :
    lastIndexOf (a ++ '.' :: b) '.' = some a.length := by
  simp only [lastIndexOf]
  have hrev : (a ++ '.' :: b).reverse = b.reverse ++ '.' :: a.reverse := by
    simp [List.reverse_append]
  rw [hrev]
  have hnone : b.reverse.findIdx? (fun x => x == '.') = none := by
    rw [List.findIdx?_eq_none_iff]
    intro x hx
    have hxb : x ∈ b := List.mem_reverse.mp hx
    have hne : x ≠ '.' := fun hcon => hb (hcon ▸ hxb)
    simp [hne]
  rw [List.findIdx?_append, hnone]
  simp [List.length_append]

theorem getExt_append_cons (a b : List Char) (hb : '.' ∉ b) :
    getExt (a ++ '.' :: b) = b.map Char.toLower := by
  simp only [getExt, lastIndexOf_append_cons a b hb]
  have hdrop : (a ++ '.' :: b).drop (a.length + 1) = b := by
    rw [show a ++ '.' :: b = (a ++ ['.']) ++ b by simp]
    exact List.drop_left' (by simp)
  rw [hdrop]

theorem getExt_no_dot (name : List Char) (hn : '.' ∉ name) : getExt name = [] := by
  simp only [getExt, lastIndexOf]
  have hnone : name.reverse.findIdx? (fun x => x == '.') = none := by
    rw [List.findIdx?_eq_none_iff]
    intro x hx
    have hxb : x ∈ name := List.mem_reverse.mp hx
    have hne : x ≠ '.' := fun hcon => hn (hcon ▸ hxb)
    simp [hne]
  rw [hnone]

theorem processRubricFiles_append_error {B : Type} (p : Parsers B) :
    ∀ (pre : List (UFile B)) (f : UFile B) (post : List (UFile B))
      (cs : List (List Char)) (e : List Char),
      processRubricFiles p pre = .ok cs →
      processRubricFile p f = .error e →
      processRubricFiles p (pre ++ f :: post) = .error e := by
  intro pre
  induction pre with
  | nil =>
    intro f post cs e _ herr
    simp [processRubricFiles, herr]
  | cons g pre ih =>
    intro f post cs e hok herr
    simp only [processRubricFiles, List.cons_append, List.append_eq] at hok ⊢
    cases hg : processRubricFile p g with
    | error e' =>
      rw [hg] at hok
      simp at hok
    | ok chunk =>
      rw [hg] at hok
      cases hrest : processRubricFiles p pre with
      | error e' =>
        rw [hrest] at hok
        simp at hok
      | ok cs' =>
        have hstep := ih f post cs' e hrest herr
        simp [hstep]

theorem processContextFiles_append_error {B : Type} (p : Parsers B) :
    ∀ (pre : List (UFile B)) (f : UFile B) (post : List (UFile B))
      (cs : List (List Char)) (imgs : List ImageInput) (e : List Char),
      processContextFiles p pre = .ok (cs, imgs) →
      processContextFile p f = .error e →
      processContextFiles p (pre ++ f :: post) = .error e := by
  intro pre
  induction pre with
  | nil =>
    intro f post cs imgs e _ herr
    simp [processContextFiles, herr]
  | cons g pre ih =>
    intro f post cs imgs e hok herr
    simp only [processContextFiles, List.cons_append, List.append_eq] at hok ⊢
    cases hg : processContextFile p g with
    | error e2 =>
      rw [hg] at hok
      simp at hok
    | ok v =>
      rw [hg] at hok
      cases v with
      | inl chunk =>
        cases hrest : processContextFiles p pre with
        | error e2 =>
          rw [hrest] at hok
          simp at hok
        | ok pr =>
          obtain ⟨cs2, is2⟩ := pr
          have hstep := ih f post cs2 is2 e hrest herr
          simp [hstep]
      | inr img =>
        cases hrest : processContextFiles p pre with
        | error e2 =>
          rw [hrest] at hok
          simp at hok
        | ok pr =>
          obtain ⟨cs2, is2⟩ := pr
          have hstep := ih f post cs2 is2 e hrest herr
          simp [hstep]

theorem handleGenerate_ctx_error {B : Type} (p : Parsers B) (template : List Char)
    (body : Body) (cf rf : List (UFile B)) (e : List Char)
    (hc : processContextFiles p cf = .error e) :
    handleGenerate p template body cf rf = .badRequest e := by
  simp [handleGenerate, hc]

theorem handleGenerate_rubric_error {B : Type} (p : Parsers B) (template : List Char)
    (body : Body) (cf rf : List (UFile B)) (chunks : List (List Char))
    (imgs : List ImageInput) (e : List Char)
    (hc : processContextFiles p cf = .ok (chunks, imgs))
    (hr : processRubricFiles p rf = .error e) :
    handleGenerate p template body cf rf = .badRequest e := by
  simp [handleGenerate, hc, hr]

theorem processContextFiles_cons_error {B : Type} (p : Parsers B)
    (f : UFile B) (fs : List (UFile B)) (e : List Char)
    (herr : processContextFile p f = .error e) :
    processContextFiles p (f :: fs) = .error e := by
  simp [processContextFiles, herr]

/-- Claim C1 counterexample: the claim asserts the six not-supplied markers
are pairwise distinct, but the coach-role marker and the customer-name
marker are the same string `（未提供）`, as the payload built by the handler
shows at any concrete input. -/
theorem payload_markers_not_distinct :
    (mkPayload []).coachRole = (mkPayload []).customerName ∧
    coachRoleMarker = customerNameMarker := ⟨rfl, rfl⟩

/-- Claim C1 (amended): every placeholder field not supplied by the end user
(training goal, trainee role, persona role, scenario type, coach role,
customer name) is substituted with a fixed marker string; the markers of the
first four fields are pairwise distinct and distinct from the shared
`（未提供）` marker, while coach role and customer name share that marker. -/
theorem payload_markers_fixed (x : List Char) :
    (mkPayload x).trainingGoal = trainingGoalMarker ∧
    (mkPayload x).traineeRole = traineeRoleMarker ∧
    (mkPayload x).personaRole = personaRoleMarker ∧
    (mkPayload x).scenarioType = scenarioTypeMarker ∧
    (mkPayload x).coachRole = coachRoleMarker ∧
    (mkPayload x).customerName = customerNameMarker ∧
    List.Pairwise (fun a b => a ≠ b)
      [trainingGoalMarker, traineeRoleMarker, personaRoleMarker,
       scenarioTypeMarker, coachRoleMarker] ∧
    coachRoleMarker = customerNameMarker := by
  refine ⟨rfl, rfl, rfl, rfl, rfl, rfl, ?_, rfl⟩
  decide

/-- Claim C3: `clampText` is the identity when the text fits the budget;
otherwise it returns the first `maxChars` characters followed by the
truncation notice, the notice renders the original length exactly, and the
output length is `maxChars` plus the notice length.  The default budget is
80,000 characters. -/
theorem clampText_spec (s : List Char) (maxChars : Nat) :
    (s.length ≤ maxChars → clampText s maxChars = s) ∧
    (maxChars < s.length →
      clampText s maxChars = s.take maxChars ++
        ("\n\n(…已截斷，原長度 ".data ++ (Nat.repr s.length).data ++ " chars)".data) ∧
      (clampText s maxChars).length = maxChars + (truncNote s.length).length) ∧
    clampTextD s = clampText s clampDefault ∧ clampDefault = 80000 := by
  refine ⟨fun h => by simp [clampText, h], fun h => ?_, rfl, rfl⟩
  have hnot : ¬ s.length ≤ maxChars := Nat.not_le.mpr h
  constructor
  · simp [clampText, hnot, truncNote]
  · simp only [clampText, hnot, if_false, List.length_append, List.length_take]
    omega

/-- Claim C3 witness. -/
theorem clampText_spec_witness :
    clampText "ab".data 5 = "ab".data ∧
    clampText "abcdef".data 3 = "abcdef".data.take 3 ++
      ("\n\n(…已截斷，原長度 ".data ++ (Nat.repr 6).data ++ " chars)".data) ∧
    (clampText "abcdef".data 3).length = 3 + (truncNote 6).length :=
  ⟨(clampText_spec "ab".data 5).1 (by decide),
   ((clampText_spec "abcdef".data 3).2.1 (by decide)).1,
   ((clampText_spec "abcdef".data 3).2.1 (by decide)).2⟩

/-- Claim C4: the field-bundle merge returns the trimmed literal text when
there are no attachment chunks (`merge("", [])` empty, `merge("abc", [])`
is `"abc"`); with chunks present the result is the trimmed literal text,
the fixed banner line, and the chunks joined with blank-line separation in
submission order — the banner appearing even for empty literal text. -/
theorem mergeBundle_spec (lit c : List Char) (cs : List (List Char)) :
    mergeBundle (safeD lit) ctxAttachBanner [] = jsTrim lit ∧
    mergeBundle (safeD []) ctxAttachBanner [] = [] ∧
    mergeBundle (safeD "abc".data) ctxAttachBanner [] = "abc".data ∧
    mergeBundle (safeD lit) ctxAttachBanner (c :: cs) =
      jsTrim lit ++ ctxAttachBanner ++ joinSep "\n\n".data (c :: cs) ∧
    mergeBundle (safeD []) ctxAttachBanner (c :: cs) =
      ctxAttachBanner ++ joinSep "\n\n".data (c :: cs) := by
  refine ⟨?_, by decide, ?_, ?_, ?_⟩
  · simp [mergeBundle, safeD_eq_jsTrim]
  · have h : safeD "abc".data = "abc".data := by decide
    simp [mergeBundle, h]
  · simp [mergeBundle, safeD_eq_jsTrim, List.append_assoc]
  · have h : safeD [] = [] := by decide
    simp [mergeBundle, h]

/-- Claim C2 counterexample: with a field text that itself contains a
placeholder token, the source's substitution order leaves an occurrence of
the transcript token unreplaced in the result, while a different permutation
of the seven substitutions yields a different result — so the result is not
independent of substitution order, and not every occurrence of every
placeholder token ends up replaced.  Moreover even a brace-free field text
breaks the claim: the GetSubstitution escape dollar-ampersand in `a$&b`
re-inserts the matched placeholder token into the output. -/
theorem buildPrompt_order_dependent :
    altOrder.Perm codeOrder ∧
    applySubsts cexPayload altOrder cexTemplate ≠ buildPrompt cexTemplate cexPayload ∧
    containsSub (tok .contextDocuments) (buildPrompt cexTemplate cexPayload) = true ∧
    (∀ g, braceFreeStr (fieldValue cexPayloadDollar g) = true) ∧
    buildPrompt cexTemplate cexPayloadDollar =
      "a".data ++ tok .trainingGoal ++ "b".data ∧
    containsSub (tok .trainingGoal) (buildPrompt cexTemplate cexPayloadDollar) = true := by
  refine ⟨by decide, by decide, by decide, by decide, by decide, by decide⟩

/-- Claim C2 (amended): when the template is an interleaving of brace-free
literal segments with placeholder tokens and no field text contains an
opening brace or a dollar character (so no GetSubstitution escape can fire),
`buildPrompt` replaces every occurrence of each of the seven placeholder
tokens with its field text, the result equals the parallel rendering of the
template, it is the same for every substitution order, and no placeholder
token remains in the result.  Without those side conditions the order can
matter (see the counterexample). -/
theorem buildPrompt_order_independent (ps : List Piece) (pl : Payload)
    (hw : wfPieces ps = true) (hb : cleanPayload pl = true) :
    buildPrompt (toTemplate ps) pl = render pl ps ∧
    (∀ fs : List PromptField, fs.Perm codeOrder →
      applySubsts pl fs (toTemplate ps) = render pl ps) ∧
    (∀ f : PromptField, containsSub (tok f) (render pl ps) = false) := by
  have hmain : ∀ fs : List PromptField, fs.Perm codeOrder →
      applySubsts pl fs (toTemplate ps) = render pl ps := by
    intro fs hperm
    apply applySubsts_complete pl ps hw hb
    intro g
    exact hperm.mem_iff.mpr (mem_codeOrder g)
  refine ⟨?_, hmain, ?_⟩
  · rw [buildPrompt_eq_applySubsts]
    exact hmain codeOrder (List.Perm.refl _)
  · intro f
    exact containsSub_false_of_braceFree (render_braceFree pl hb ps hw) f

/-- Claim C2 witness. -/
theorem buildPrompt_order_independent_witness :
    wfPieces wPieces = true ∧ cleanPayload wPayload = true ∧
    buildPrompt (toTemplate wPieces) wPayload = render wPayload wPieces :=
  ⟨by decide, by decide,
   (buildPrompt_order_independent wPieces wPayload (by decide) (by decide)).1⟩

/-- Claim C5: when both file loops succeed, the transcript field's merged
text trims to empty and no image inputs were produced, the handler answers
HTTP 400 with `ok:false` and the missing-transcript message, and the
completion dispatcher is never invoked. -/
theorem missing_transcript_rejected {B : Type} (p : Parsers B)
    (template : List Char) (body : Body) (cf rf : List (UFile B))
    (chunks rchunks : List (List Char))
    (hc : processContextFiles p cf = .ok (chunks, []))
    (hr : processRubricFiles p rf = .ok rchunks)
    (hempty : (safeD (mergeBundle (jsOr (safeD body.contextDocuments) (safeD body.text))
      ctxAttachBanner chunks)).isEmpty = true) :
    handleGenerate p template body cf rf = .badRequest missingTranscriptMsg ∧
    (handleGenerate p template body cf rf).status = 400 ∧
    (handleGenerate p template body cf rf).okFlag = false ∧
    ∀ prompt images, handleGenerate p template body cf rf ≠ .dispatch prompt images := by
  have hres : handleGenerate p template body cf rf = .badRequest missingTranscriptMsg := by
    simp only [handleGenerate, hc, hr]
    simp [hempty]
  refine ⟨hres, by rw [hres]; rfl, by rw [hres]; rfl, ?_⟩
  intro prompt images
  rw [hres]
  simp

/-- Claim C5 witness: the empty request. -/
theorem missing_transcript_rejected_witness :
    handleGenerate trivialParsers [] ⟨[], [], []⟩ ([] : List (UFile Unit)) [] =
      .badRequest missingTranscriptMsg :=
  (missing_transcript_rejected trivialParsers [] ⟨[], [], []⟩ [] [] [] []
    rfl rfl (by decide)).1

/-- Claim C6 counterexample: a request whose rubric field carries two image
attachments is rejected with a message naming only the first of them — the
response for a request containing the image attachment `b.png` does not
name that file. -/
theorem rubric_image_names_first_offender :
    isSupportedImageExt (getExt "b.png".data) = true ∧
    handleGenerate trivialParsers [] ⟨[], [], []⟩ ([] : List (UFile Unit))
      [⟨"a.png".data, ()⟩, ⟨"b.png".data, ()⟩] =
      .badRequest (rubricImageMsg "a.png".data) ∧
    containsSub "b.png".data (rubricImageMsg "a.png".data) = false := by
  refine ⟨by decide, by decide, by decide⟩

/-- Claim C6 (amended): an image-extension attachment in the rubric field
whose predecessors all process successfully makes the handler answer HTTP
400 with a message naming that file, before the completion dispatcher is
invoked (with several offending attachments, the message names the first);
image attachments in the transcript field instead produce an `ImageInput`
whose data URL carries the correct MIME type (`png → image/png`,
`jpg/jpeg → image/jpeg`, `webp → image/webp`) and the base64-encoded
payload. -/
theorem rubric_image_rejected {B : Type} (p : Parsers B) (template : List Char)
    (body : Body) (cf pre post : List (UFile B)) (f : UFile B)
    (chunks pchunks : List (List Char)) (imgs : List ImageInput)
    (hc : processContextFiles p cf = .ok (chunks, imgs))
    (hpre : processRubricFiles p pre = .ok pchunks)
    (himg : isSupportedImageExt (getExt f.originalname) = true) :
    handleGenerate p template body cf (pre ++ f :: post) =
      .badRequest (rubricImageMsg f.originalname) ∧
    (handleGenerate p template body cf (pre ++ f :: post)).status = 400 ∧
    containsSub f.originalname (rubricImageMsg f.originalname) = true ∧
    (∀ prompt images,
      handleGenerate p template body cf (pre ++ f :: post) ≠ .dispatch prompt images) ∧
    (∀ g : UFile B, isSupportedImageExt (getExt g.originalname) = true →
      processContextFile p g =
        .ok (.inr ⟨dataUrl (mimeOf (getExt g.originalname)) (p.base64 g.buffer)⟩)) ∧
    mimeOf "png".data = "image/png".data ∧
    mimeOf "jpg".data = "image/jpeg".data ∧
    mimeOf "jpeg".data = "image/jpeg".data ∧
    mimeOf "webp".data = "image/webp".data := by
  have herr : processRubricFile p f = .error (rubricImageMsg f.originalname) := by
    simp [processRubricFile, himg]
  have hlist := processRubricFiles_append_error p pre f post pchunks _ hpre herr
  have hres : handleGenerate p template body cf (pre ++ f :: post) =
      .badRequest (rubricImageMsg f.originalname) :=
    handleGenerate_rubric_error p template body cf _ chunks imgs _ hc hlist
  refine ⟨hres, by rw [hres]; rfl, containsSub_suffix _ _, ?_, ?_, by decide, by decide,
    by decide, by decide⟩
  · intro prompt images
    rw [hres]
    simp
  · intro g hg
    obtain ⟨h1, h2, h3, h4, h5⟩ := image_ext_dispatch hg
    simp [processContextFile, h1, h2, h3, h4, h5, hg]

/-- Claim C6 witness. -/
theorem rubric_image_rejected_witness :
    handleGenerate trivialParsers [] ⟨[], [], []⟩ ([] : List (UFile Unit))
      [⟨"a.png".data, ()⟩] = .badRequest (rubricImageMsg "a.png".data) :=
  (rubric_image_rejected trivialParsers [] ⟨[], [], []⟩ [] [] []
    ⟨"a.png".data, ()⟩ [] [] [] rfl rfl (by decide)).1

/-- Claim C7: for a `.json` attachment, the decoded content is canonicalized
by parsing and pretty-printing when parsing succeeds; when parsing fails
the raw decoded text is kept unmodified and the attachment still produces a
chunk — the parse failure is never surfaced as an error, in either field. -/
theorem json_canonicalization_nonfatal {B : Type} (p : Parsers B) (f : UFile B)
    (hext : getExt f.originalname = "json".data) :
    (p.jsonCanon (p.utf8 f.buffer) = none →
      processContextFile p f =
        .ok (.inl (ctxTextLabel f.originalname ++ clampTextD (p.utf8 f.buffer))) ∧
      processRubricFile p f =
        .ok (rubricTextLabel f.originalname ++ clampTextD (p.utf8 f.buffer))) ∧
    (∀ pretty, p.jsonCanon (p.utf8 f.buffer) = some pretty →
      processContextFile p f =
        .ok (.inl (ctxTextLabel f.originalname ++ clampTextD pretty)) ∧
      processRubricFile p f =
        .ok (rubricTextLabel f.originalname ++ clampTextD pretty)) := by
  have ht : isSupportedTextExt "json".data = true := by decide
  have hi : isSupportedImageExt "json".data = false := by decide
  constructor
  · intro hj
    constructor
    · simp [processContextFile, hext, ht, textContent, hj]
    · simp [processRubricFile, hext, ht, hi, textContent, hj]
  · intro pretty hj
    constructor
    · simp [processContextFile, hext, ht, textContent, hj]
    · simp [processRubricFile, hext, ht, hi, textContent, hj]

/-- Claim C7 witness: invalid JSON content degrades to raw passthrough. -/
theorem json_canonicalization_nonfatal_witness :
    processContextFile jsonNoneParsers ⟨"a.json".data, ()⟩ =
      .ok (.inl (ctxTextLabel "a.json".data ++ clampTextD "not json".data)) :=
  ((json_canonicalization_nonfatal jsonNoneParsers ⟨"a.json".data, ()⟩
    (by decide)).1 rfl).1

/-- Claim C8: a PDF attachment never fails the request: the produced chunk
carries the scanned-document substitute message when the extracted text
trims to empty, and the clamped trimmed text otherwise. -/
theorem pdf_extraction_never_fails {B : Type} (p : Parsers B) (f : UFile B)
    (hext : getExt f.originalname = "pdf".data) :
    processContextFile p f = .ok (.inl (ctxPdfLabel f.originalname ++
      (if (jsTrim (p.pdfText f.buffer)).isEmpty then pdfEmptyMsg
       else clampTextD (jsTrim (p.pdfText f.buffer))))) ∧
    (∀ e, processContextFile p f ≠ .error e) ∧
    ((jsTrim (p.pdfText f.buffer)).isEmpty = true →
      processContextFile p f =
        .ok (.inl (ctxPdfLabel f.originalname ++ pdfEmptyMsg))) ∧
    ((jsTrim (p.pdfText f.buffer)).isEmpty = false →
      processContextFile p f = .ok (.inl (ctxPdfLabel f.originalname ++
        clampTextD (jsTrim (p.pdfText f.buffer))))) := by
  obtain ⟨h1, h2, h3⟩ := pdf_ext_dispatch
  have hmain : processContextFile p f = .ok (.inl (ctxPdfLabel f.originalname ++
      (if (jsTrim (p.pdfText f.buffer)).isEmpty then pdfEmptyMsg
       else clampTextD (jsTrim (p.pdfText f.buffer))))) := by
    simp [processContextFile, hext, h1, h2, h3]
  refine ⟨hmain, fun e => by rw [hmain]; simp, fun hcase => ?_, fun hcase => ?_⟩
  · rw [hmain, hcase]
    simp
  · rw [hmain, hcase]
    simp

/-- Claim C8 witness: whitespace-only extraction yields the substitute
message instead of an error. -/
theorem pdf_extraction_never_fails_witness :
    processContextFile pdfWsParsers ⟨"scan.pdf".data, ()⟩ =
      .ok (.inl (ctxPdfLabel "scan.pdf".data ++ pdfEmptyMsg)) :=
  (pdf_extraction_never_fails pdfWsParsers ⟨"scan.pdf".data, ()⟩
    (by decide)).2.2.1 (by decide)

/-- Claim C9: `excelBufferToText` is the blank-line-separated concatenation,
over the workbook's sheets in their internal order, of a banner line naming
the sheet followed by that sheet's CSV rendering; a workbook with sheets
`Q1` and `Q2` yields exactly the two banner-delimited blocks in that order,
and a spreadsheet attachment produces that text, labelled and clamped. -/
theorem excel_sheets_in_order {B : Type} (p : Parsers B) (f : UFile B)
    (hext : isSupportedExcelExt (getExt f.originalname) = true) :
    (∀ wb : List (List Char × List Char),
      excelBufferToText wb =
        joinSep "\n\n".data (wb.map (fun s => sheetBlock s.1 s.2))) ∧
    (∀ n1 c1 n2 c2 : List Char,
      excelBufferToText [(n1, c1), (n2, c2)] =
        sheetBlock n1 c1 ++ "\n\n".data ++ sheetBlock n2 c2) ∧
    processContextFile p f = .ok (.inl (ctxExcelLabel f.originalname ++
      clampTextD (excelBufferToText (p.workbook f.buffer)))) := by
  have h1 := excel_ext_dispatch hext
  refine ⟨?_, fun n1 c1 n2 c2 => rfl, ?_⟩
  · intro wb
    simp [excelBufferToText, foldl_push_eq_map]
  · simp [processContextFile, h1, hext]

/-- Claim C9 witness: the `Q1`/`Q2` workbook. -/
theorem excel_sheets_in_order_witness :
    processContextFile excelParsers ⟨"wb.xlsx".data, ()⟩ =
      .ok (.inl (ctxExcelLabel "wb.xlsx".data ++
        clampTextD (excelBufferToText
          [("Q1".data, "1,2\n".data), ("Q2".data, "3,4\n".data)]))) :=
  (excel_sheets_in_order excelParsers ⟨"wb.xlsx".data, ()⟩ (by decide)).2.2

/-- Claim C10 (amended): the dispatched extension is the substring after the
last dot, lowercased (`X.PDF` dispatches as `pdf`); a filename with no dot
yields the empty extension, which belongs to no recognized set, so the
attachment's dispatch produces that field's unsupported-format 400 error
naming the file, and the request is rejected with that error whenever the
attachment is the first one failing a check — in the transcript field when
all preceding transcript attachments process successfully, and in the
rubric field when all transcript attachments and all earlier rubric
attachments process successfully (with an earlier offending attachment, the
400 names that earlier file instead). -/
theorem getExt_dispatch_spec {B : Type} (p : Parsers B) (template : List Char)
    (body : Body) (pre post rf cf2 rpre rpost : List (UFile B)) (buf : B)
    (pcs ccs rcs : List (List Char)) (pimgs cimgs : List ImageInput)
    (a b name : List Char) (hb : '.' ∉ b) (hn : '.' ∉ name)
    (hpre : processContextFiles p pre = .ok (pcs, pimgs))
    (hcf2 : processContextFiles p cf2 = .ok (ccs, cimgs))
    (hrpre : processRubricFiles p rpre = .ok rcs) :
    getExt (a ++ '.' :: b) = b.map Char.toLower ∧
    getExt "X.PDF".data = "pdf".data ∧
    getExt name = [] ∧
    isSupportedTextExt [] = false ∧ isSupportedExcelExt [] = false ∧
    isSupportedPdfExt [] = false ∧ isSupportedDocxExt [] = false ∧
    isSupportedPptxExt [] = false ∧ isSupportedImageExt [] = false ∧
    processContextFile p ⟨name, buf⟩ = .error (ctxUnsupportedMsg name) ∧
    processRubricFile p ⟨name, buf⟩ = .error (rubricUnsupportedMsg name) ∧
    handleGenerate p template body (pre ++ ⟨name, buf⟩ :: post) rf =
      .badRequest (ctxUnsupportedMsg name) ∧
    handleGenerate p template body cf2 (rpre ++ ⟨name, buf⟩ :: rpost) =
      .badRequest (rubricUnsupportedMsg name) ∧
    containsSub name (ctxUnsupportedMsg name) = true ∧
    containsSub name (rubricUnsupportedMsg name) = true := by
  have hge : getExt name = [] := getExt_no_dot name hn
  have e1 : isSupportedTextExt [] = false := by decide
  have e2 : isSupportedExcelExt [] = false := by decide
  have e3 : isSupportedPdfExt [] = false := by decide
  have e4 : isSupportedDocxExt [] = false := by decide
  have e5 : isSupportedPptxExt [] = false := by decide
  have e6 : isSupportedImageExt [] = false := by decide
  have hproc : processContextFile p ⟨name, buf⟩ = .error (ctxUnsupportedMsg name) := by
    simp [processContextFile, hge, e1, e2, e3, e4, e5, e6]
  have hrproc : processRubricFile p ⟨name, buf⟩ =
      .error (rubricUnsupportedMsg name) := by
    simp [processRubricFile, hge, e1, e2, e3, e4, e5, e6]
  have hfold : processContextFiles p (pre ++ ⟨name, buf⟩ :: post) =
      .error (ctxUnsupportedMsg name) :=
    processContextFiles_append_error p pre ⟨name, buf⟩ post pcs pimgs _ hpre hproc
  have hrfold : processRubricFiles p (rpre ++ ⟨name, buf⟩ :: rpost) =
      .error (rubricUnsupportedMsg name) :=
    processRubricFiles_append_error p rpre ⟨name, buf⟩ rpost rcs _ hrpre hrproc
  exact ⟨getExt_append_cons a b hb, by decide, hge, e1, e2, e3, e4, e5, e6, hproc,
    hrproc,
    handleGenerate_ctx_error p template body _ rf _ hfold,
    handleGenerate_rubric_error p template body cf2 _ ccs cimgs _ hcf2 hrfold,
    containsSub_suffix _ _, containsSub_suffix _ _⟩

/-- Claim C10 witness: a dotless attachment preceded by a successfully
processed attachment, once in the transcript field and once in the rubric
field. -/
theorem getExt_dispatch_spec_witness :
    getExt ("ab".data ++ '.' :: "TXT".data) = "TXT".data.map Char.toLower ∧
    handleGenerate trivialParsers [] ⟨[], [], []⟩
      ([⟨"ok.txt".data, ()⟩] ++ ⟨"noext".data, ()⟩ :: [])
      ([] : List (UFile Unit)) = .badRequest (ctxUnsupportedMsg "noext".data) ∧
    handleGenerate trivialParsers [] ⟨[], [], []⟩ ([] : List (UFile Unit))
      ([⟨"r.md".data, ()⟩] ++ ⟨"noext".data, ()⟩ :: []) =
      .badRequest (rubricUnsupportedMsg "noext".data) :=
  ⟨(getExt_dispatch_spec trivialParsers [] ⟨[], [], []⟩
      [⟨"ok.txt".data, ()⟩] [] [] [] [⟨"r.md".data, ()⟩] [] ()
      [ctxTextLabel "ok.txt".data] [] [rubricTextLabel "r.md".data] [] []
      "ab".data "TXT".data "noext".data
      (by decide) (by decide) rfl rfl rfl).1,
   (getExt_dispatch_spec trivialParsers [] ⟨[], [], []⟩
      [⟨"ok.txt".data, ()⟩] [] [] [] [⟨"r.md".data, ()⟩] [] ()
      [ctxTextLabel "ok.txt".data] [] [rubricTextLabel "r.md".data] [] []
      "ab".data "TXT".data "noext".data
      (by decide) (by decide) rfl rfl rfl).2.2.2.2.2.2.2.2.2.2.2.1,
   (getExt_dispatch_spec trivialParsers [] ⟨[], [], []⟩
      [⟨"ok.txt".data, ()⟩] [] [] [] [⟨"r.md".data, ()⟩] [] ()
      [ctxTextLabel "ok.txt".data] [] [rubricTextLabel "r.md".data] [] []
      "ab".data "TXT".data "noext".data
      (by decide) (by decide) rfl rfl rfl).2.2.2.2.2.2.2.2.2.2.2.2.1⟩

/-- Claim C10 counterexample: with two dotless attachments in the transcript
field, the 400 error names only the first; for the later attachment
`beta`, the claim's "rejected with the unsupported-format error naming the
file" fails — the response does not name it. -/
theorem unsupported_names_first_offender :
    ('.' ∉ "beta".data) ∧
    handleGenerate trivialParsers [] ⟨[], [], []⟩
      [⟨"alpha".data, ()⟩, ⟨"beta".data, ()⟩] ([] : List (UFile Unit)) =
      .badRequest (ctxUnsupportedMsg "alpha".data) ∧
    containsSub "beta".data (ctxUnsupportedMsg "alpha".data) = false := by
  refine ⟨by decide, by decide, by decide⟩
